import Mathlib

/-!
Shallow embedding of the multi-agent company-research core:
`src/agents/multi_agent.py` (PlannerAgent, RetrieverAgent, SynthesizerAgent,
CriticAgent), `src/agents/research_agent.py` (ResearchAgent.answer_multi)
and `src/services/index.py` (VectorIndex).

External collaborators (Gemini text generation, the SerpAPI/Google search
provider, the OpenAI embedder, the JSON cache) are modelled as explicit
function parameters; a collaborator call that raises a Python exception is
modelled as `Except.error`.  Machine floats are idealised as real numbers.
-/

namespace CAPlan

/-- Python whitespace used by `str.strip` (ASCII part, which is all the
repository's fixed strings use). -/
def pyIsSpaceChar (c : Char) : Bool :=
  c = ' ' || c = '\t' || c = '\n' || c = '\r' || c = '\x0b' || c = '\x0c'

/-- Python `str.strip()`. -/
def pyStrip (s : String) : String :=
  ⟨((s.data.dropWhile pyIsSpaceChar).reverse.dropWhile pyIsSpaceChar).reverse⟩

/-- Python `str.splitlines()`, restricted to the line boundaries that occur in
this code base; trailing-empty-piece differences are erased by the callers,
which strip and drop blank lines. -/
def pySplitLines (s : String) : List String :=
  s.split (fun c => c = '\n' || c = '\r' || c = '\x0b' || c = '\x0c')

/-- Python `str.lower()` (ASCII part, which is all the fixed trigger
strings need). -/
def pyLower (s : String) : String :=
  ⟨s.data.map Char.toLower⟩

/-- Replacement loop for `str.replace`: scan left to right, replace each
non-overlapping occurrence of `old` (all the source's patterns are
non-empty).  `fuel` only bounds the recursion and is passed as the input
length. -/
def replaceFuel (old new : List Char) : Nat → List Char → List Char
  | 0, l => l
  | _ + 1, [] => []
  | fuel + 1, c :: rest =>
      if old.isPrefixOf (c :: rest) && !old.isEmpty then
        new ++ replaceFuel old new fuel ((c :: rest).drop old.length)
      else c :: replaceFuel old new fuel rest

/-- Python `s.replace(old, new)` for non-empty `old`. -/
def pyReplace (s old new : String) : String :=
  ⟨replaceFuel old.data new.data s.data.length s.data⟩

/-- Occurrence of `needle` as a contiguous sublist of a character list;
`strContains [] hay = true` mirrors Python's `"" in s`. -/
def strContains (needle : List Char) : List Char → Bool
  | [] => needle.isEmpty
  | c :: t => needle.isPrefixOf (c :: t) || strContains needle t

/-- Python's `needle in hay` on strings. -/
def pyIn (needle hay : String) : Bool :=
  strContains needle.data hay.data

/-- Python regex `\w` (ASCII part). -/
def isWordChar (c : Char) : Bool :=
  c.isAlphanum || c = '_'

/-- Whether a position whose preceding character is `prev` (`none` at the
start of the string) is a word boundary in front of a word character. -/
def boundaryOk : Option Char → Bool
  | none => true
  | some p => !(isWordChar p)

/-- Model of `re.sub(r",(?=\S)", ", ", text)` from `SynthesizerAgent._clean`: insert a
space after a comma that is directly followed by a non-space character. -/
def commaFix : List Char → List Char
  | [] => []
  | ',' :: c :: rest =>
      if pyIsSpaceChar c then ',' :: commaFix (c :: rest)
      else ',' :: ' ' :: commaFix (c :: rest)
  | c :: rest => c :: commaFix rest

/-- Model of `re.sub(r"\b(USD|EUR)(?=\d)", r"\1 ", text)` from
`SynthesizerAgent._clean`: insert a space between a currency code at a word
boundary and an immediately following digit. -/
def currFix (prev : Option Char) : List Char → List Char
  | 'U' :: 'S' :: 'D' :: c :: rest =>
      if boundaryOk prev && c.isDigit then
        'U' :: 'S' :: 'D' :: ' ' :: currFix (some 'D') (c :: rest)
      else
        'U' :: currFix (some 'U') ('S' :: 'D' :: c :: rest)
  | 'E' :: 'U' :: 'R' :: c :: rest =>
      if boundaryOk prev && c.isDigit then
        'E' :: 'U' :: 'R' :: ' ' :: currFix (some 'R') (c :: rest)
      else
        'E' :: currFix (some 'E') ('U' :: 'R' :: c :: rest)
  | c :: rest => c :: currFix (some c) rest
  | [] => []

/-- Model of `SynthesizerAgent._clean`: unescape the fixed set of backslash-escaped
markdown characters, apply the comma and currency spacing fixes, strip. -/
def synthClean (s : String) : String :=
  let t := pyReplace (pyReplace (pyReplace (pyReplace (pyReplace s
    "\\(" "(") "\\)" ")") "\\*" "*") "\\-" "-") "\\#" "#"
  pyStrip ⟨currFix none (commaFix t.data)⟩

/-- A search hit / fresh snippet record `{name, url, snippet}`; absent keys
and `None` values are collapsed to `""`, which is how the retriever's
`h.get(key, "")` defaults behave for every use the core makes of them. -/
structure Snip where
  name : String
  url : String
  snippet : String
deriving DecidableEq, Repr

/-- The query loop of `RetrieverAgent.gather_snippets`: for each query call
the search collaborator, keep the hits with a non-empty URL, concatenate in
query order.  An exception from the collaborator propagates (there is no
try/except in the source loop). -/
def collect (searchF : String → Except Unit (List Snip)) :
    List String → Except Unit (List Snip)
  | [] => .ok []
  | q :: qs =>
      match searchF q with
      | .error e => .error e
      | .ok hits =>
          match collect searchF qs with
          | .error e => .error e
          | .ok rest => .ok (hits.filter (fun h => h.url ≠ "") ++ rest)

/-- The URL-deduplication loop of `gather_snippets` (`seen` set, first
occurrence kept, order preserved). -/
def dedupByUrl (seen : List String) : List Snip → List Snip
  | [] => []
  | r :: rs =>
      if r.url ∈ seen then dedupByUrl seen rs
      else r :: dedupByUrl (r.url :: seen) rs

/-- Model of `RetrieverAgent.gather_snippets(queries, count)`: collect per-query hits
(best effort only against empty results, not against exceptions),
de-duplicate by URL, cap at 20.  The `count` argument is forwarded verbatim
to the external search collaborator and is therefore absorbed into the
`searchF` oracle. -/
def gather_snippets (searchF : String → Except Unit (List Snip))
    (queries : List String) : Except Unit (List Snip) :=
  match collect searchF queries with
  | .error e => .error e
  | .ok results => .ok ((dedupByUrl [] results).take 20)

/-- Model of `list(dict.fromkeys(...))` on strings: first-seen-order deduplication. -/
def dedupKeys (seen : List String) : List String → List String
  | [] => []
  | r :: rs =>
      if r ∈ seen then dedupKeys seen rs
      else r :: dedupKeys (r :: seen) rs

/-- The plan record returned by `PlannerAgent.plan`. -/
structure Plan where
  needFreshSearch : Bool
  searchQueries : List String
  followups : List String
deriving DecidableEq, Repr

/-- The fixed cache-only trigger substrings of `PlannerAgent.plan`. -/
def plannerTriggers : List String :=
  ["use kb", "from cached", "from pdf", "from overview"]

/-- The fixed, non-adaptive follow-up questions of `PlannerAgent.plan`. -/
def plannerFollowups : List String :=
  ["Should I compare the last 3 years or focus on the latest year?",
   "Do you want product-level revenue or segment-level revenue?",
   "Should I include competitor benchmarks for context?"]

/-- The deterministic template fallback queries of `PlannerAgent.plan`. -/
def fallbackQueries (company userPrompt : String) : List String :=
  let base := pyStrip company
  let up := pyStrip userPrompt
  [base ++ " " ++ up ++ " latest figures",
   base ++ " segment revenue by product last year",
   base ++ " top products revenue " ++ up,
   base ++ " annual report product revenue breakdown"]

/-- Model of `PlannerAgent.plan(company, user_prompt, kb_ready)`.  The single
`call_gemini` call is modelled by `genOut`; `Except.error` models a raised
exception (caught by the planner's try/except), `.ok` the returned text.
The function is total: every failure path degrades to the template
fallback, so `plan` never raises. -/
def plan (genOut : Except Unit String) (company userPrompt : String)
    (kbReady : Bool) : Plan :=
  let needFresh :=
    !(kbReady && plannerTriggers.any (fun t => pyIn t (pyLower userPrompt)))
  let lines :=
    match genOut with
    | .error _ => []
    | .ok t => ((pySplitLines t).map pyStrip).filter (fun l => l ≠ "")
  let lines :=
    if lines.isEmpty then fallbackQueries company userPrompt else lines
  { needFreshSearch := needFresh
    searchQueries := lines.take 4
    followups := plannerFollowups }

/-- Model of `CriticAgent.needs_retry(answer_text)`.  The regex
`\b(19|20)\d{2}\b|\d` matches exactly when the text contains a digit (the
year alternative is subsumed by the bare-digit alternative), so the final
test is "no digit at all". -/
def needs_retry (answer_text : String) : Bool :=
  if answer_text == "" || pyIn "(No answer)" answer_text then true
  else if ["[Insert", "Cite Source]", "Not available", "(Overview)"].any
      (fun b => pyIn b answer_text) then true
  else !(answer_text.data.any Char.isDigit)

/-- Metadata record stored alongside each chunk (the orchestrator always
stores `{"source": url, "path": path}` dictionaries). -/
structure Meta where
  source : String
  path : String
deriving DecidableEq, Repr

instance : Inhabited Meta := ⟨⟨"", ""⟩⟩

/-- The value produced by one `VectorIndex._embed` call: the embedding rows
and the dimension the call assigns to `self.dim` (`len(embs[0])` on the API
path, the fixed 512 on the fallback path). -/
structure EmbedOut where
  vecs : List (List ℝ)
  dim : Nat

/-- State of `VectorIndex`: `vectors` is `None` until the first successful
`add` (`Option`), `texts` / `metadatas` are the parallel lists, `dim` is the
cached embedding dimension. -/
structure VectorIndex where
  vectors : Option (List (List ℝ))
  metadatas : List Meta
  texts : List String
  dim : Option Nat

/-- Model of `VectorIndex.__init__`. -/
def initIndex : VectorIndex :=
  { vectors := none, metadatas := [], texts := [], dim := none }

/-- Model of `VectorIndex.add(texts, metadatas)`: no-op when `texts` is empty,
otherwise embed (one `_embed` call, whose outcome is `eo`), extend the
parallel lists and vstack the rows. -/
def add (eo : EmbedOut) (idx : VectorIndex) (texts : List String)
    (metas : List Meta) : VectorIndex :=
  if texts.isEmpty then idx
  else
    { vectors := some (idx.vectors.getD [] ++ eo.vecs)
      metadatas := idx.metadatas ++ metas
      texts := idx.texts ++ texts
      dim := some eo.dim }

/-- Python slicing `l[:k]` for an `int` bound: a negative `k` counts from
the end (`max(len + k, 0)`). -/
def pySlice (k : Int) (l : List α) : List α :=
  l.take (if 0 ≤ k then k.toNat else ((l.length : Int) + k).toNat)

/-- The `1e-8` guard added to the similarity denominator. -/
noncomputable def epsSim : ℝ := 1 / 10 ^ 8

/-- Dot product of two rows (`vectors @ qv` per row). -/
noncomputable def dotl (v w : List ℝ) : ℝ :=
  (List.zipWith (fun a b => a * b) v w).sum

/-- Model of `np.linalg.norm` of a row: the Euclidean norm. -/
noncomputable def norm2 (v : List ℝ) : ℝ :=
  Real.sqrt (v.map (fun x => x ^ 2)).sum

/-- The similarity vector `(vectors @ qv) / (norm(vectors, axis=1) *
norm(qv) + 1e-8)`. -/
noncomputable def simsOf (qv : List ℝ) (vecs : List (List ℝ)) : List ℝ :=
  vecs.map (fun v => dotl v qv / (norm2 v * norm2 qv + epsSim))

/-- Model of `np.argsort(-sims)`: the indices `0..n-1` arranged by descending
similarity.  numpy's default sort kind guarantees only the ordering, not
how ties are broken; the model fixes ties by insertion order (stable
mergeSort), and no theorem below relies on the tie order. -/
noncomputable def argsortDesc (sims : List ℝ) : List Nat :=
  (List.range sims.length).mergeSort
    (fun i j => decide (sims.getD j 0 ≤ sims.getD i 0))

/-- Model of `VectorIndex.search(query, k)`: empty result on an empty index,
otherwise embed the query (the `embedF` collaborator stands for `_embed`),
compute cosine-style similarities, and return the `[:k]` slice of the
descending argsort as `(score, metadata)` pairs. -/
noncomputable def search (embedF : List String → EmbedOut)
    (idx : VectorIndex) (query : String) (k : Int) : List (ℝ × Meta) :=
  if idx.vectors.isNone || idx.texts.length == 0 then []
  else
    let vecs := idx.vectors.getD []
    let qv := (embedF [query]).vecs.headD []
    let sims := simsOf qv vecs
    (pySlice k (argsortDesc sims)).map
      (fun i => (sims.getD i 0, idx.metadatas.getD i default))

/-- The fallback embedding of `VectorIndex._embed` when the OpenAI client is
absent or fails: `np.random.default_rng(42).random((len(texts), 512))`.
`pcg` is the value stream of the freshly seeded generator (seed 42), which
is a fixed function — each `_embed` call re-seeds, so the output depends
only on the number of input texts, consumed row-major. -/
def embedFallback (pcg : Nat → ℝ) (texts : List String) : EmbedOut :=
  { vecs := (List.range texts.length).map
      (fun i => (List.range 512).map (fun j => pcg (512 * i + j)))
    dim := 512 }

/-- One forced-failure-mode run: `add` the texts to a fresh index with the
fallback embedder, then `search`; returns the `(score, metadata)` list. -/
noncomputable def runForced (pcg : Nat → ℝ) (texts : List String)
    (metas : List Meta) (query : String) (k : Int) : List (ℝ × Meta) :=
  let idx := add (embedFallback pcg texts) initIndex texts metas
  search (fun ts => embedFallback pcg ts) idx query k

/-- A concrete one-item index state, used for concrete evaluations of the
search contract. -/
noncomputable def idxOne : VectorIndex :=
  { vectors := some [[1]], metadatas := [⟨"s", "p"⟩], texts := ["t"],
    dim := some 1 }

/-- A concrete constant embedding collaborator, used for concrete
evaluations of the search contract. -/
noncomputable def embedOne : List String → EmbedOut :=
  fun _ => ⟨[[1]], 1⟩

/-- A concrete call-indexed generator stub: `"(No answer)"` on the first
synthesis call (call index 1), a numeric answer on every other call. -/
def genStub : Nat → Except Unit String :=
  fun n => if n == 1 then .ok "(No answer)" else .ok "Revenue 2023 20B"

/-- A concrete search collaborator returning no hits. -/
def searchStub : String → Except Unit (List Snip) :=
  fun _ => .ok []

/-- A concrete search collaborator that returns nothing for `"qe"`, raises
for `"qz"` and returns one hit otherwise. -/
def searchStubMixed : String → Except Unit (List Snip) :=
  fun q =>
    if q = "qe" then .ok []
    else if q = "qz" then .error ()
    else .ok [⟨"n", "u", "s"⟩]

/-- A concrete per-query result table exercising duplicate URLs (`"u2"`)
and an empty URL. -/
def hitsStub : String → List Snip :=
  fun q =>
    if q = "a" then [⟨"n1", "u1", "s1"⟩, ⟨"n2", "u2", "s2"⟩]
    else [⟨"n3", "u2", "s3"⟩, ⟨"n4", "", "s4"⟩]

/-- A concrete trivial embedding collaborator. -/
def embedStub : List String → EmbedOut :=
  fun _ => ⟨[], 0⟩

/-- An operation on a `VectorIndex`, carrying the outcome of the `_embed`
call it performs (if any). -/
inductive IndexOp where
  | add (eo : EmbedOut) (texts : List String) (metas : List Meta)
  | search (eo : EmbedOut) (query : String) (k : Int)

/-- State effect of one operation: `add` as above; `search` returns early on
an empty index and otherwise only updates the cached `dim` through its
`_embed` call. -/
def execOp (idx : VectorIndex) : IndexOp → VectorIndex
  | .add eo ts ms => add eo idx ts ms
  | .search eo _ _ =>
      if idx.vectors.isNone || idx.texts.length == 0 then idx
      else { idx with dim := some eo.dim }

/-- Run a sequence of index operations. -/
def runOps (idx : VectorIndex) (ops : List IndexOp) : VectorIndex :=
  ops.foldl execOp idx

/-- The parallel-array invariant: as many stored texts as embedding rows and
as metadata records. -/
def wfIndex (idx : VectorIndex) : Prop :=
  idx.texts.length = idx.metadatas.length ∧
    idx.texts.length = (idx.vectors.getD []).length

/-- Well-formedness of one operation's inputs: `add` is given equal-length
`texts`/`metadatas` and its `_embed` call returns one row per text (both
`_embed` paths do). -/
def okOp : IndexOp → Prop
  | .add eo ts ms => ts.length = ms.length ∧ eo.vecs.length = ts.length
  | .search _ _ _ => True

/-- An overview cache record entry, as read back from
`read_json(company, "basic_overview")["results"]`.  It only feeds the text
prompt sent to the external generator, which the model treats as an
opaque oracle. -/
structure OvR where
  name : String
  url : String
  snippet : String
deriving DecidableEq, Repr

/-- The record returned by `SynthesizerAgent.answer` (and, with `followups`
filled in, by `ResearchAgent.answer_multi`). -/
structure AnswerResponse where
  answer : String
  sources : List String
  hits : List (ℝ × Meta)
  followups : List String

/-- Model of `SynthesizerAgent.answer(company, question, overview_results,
fresh_snippets)`.  `genOut` is the outcome of this call's `call_gemini`
(`.error` = raised, which propagates: the synthesizer has no try/except);
`embedF` is the embedding collaborator used by the owned index's `search`.
The composed prompt (which is where `company`, `question` and
`overviewResults` flow) goes to the external generator and does not
otherwise affect the result; `followups` is attached later by
`answer_multi` and starts empty. -/
noncomputable def answer (genOut : Except Unit String)
    (embedF : List String → EmbedOut) (idx : VectorIndex)
    (company question : String) (overviewResults : List OvR)
    (freshSnippets : List Snip) : Except Unit AnswerResponse :=
  let hits :=
    if idx.vectors.isSome && decide (0 < idx.texts.length) then
      search embedF idx question 5
    else []
  let pdfSources := hits.map (fun h => h.2.source)
  match genOut with
  | .error e => .error e
  | .ok ans =>
      .ok { answer := synthClean ans
            sources := (dedupKeys []
              (pdfSources ++
                (freshSnippets.filter (fun r => r.url ≠ "")).map
                  (fun r => r.url))).take 6
            hits := hits
            followups := [] }

/-- The three fixed broadened retry queries of
`ResearchAgent.answer_multi`. -/
def refineQueries (company userPrompt : String) (years : Int) :
    List String :=
  [company ++ " " ++ userPrompt ++ " latest report",
   company ++ " product revenue table FY " ++ toString years,
   company ++ " segment revenue by product"]

/-- Instrumentation of one `answer_multi` call: the fresh-snippet list
passed to each invocation of the synthesis path, and the query list passed
to each invocation of `gather_snippets`, in call order. -/
structure Trace where
  synthCalls : List (List Snip)
  retrieveCalls : List (List String)
deriving DecidableEq

/-- Model of `ResearchAgent.answer_multi(user_prompt, kb_ready)`.  The value `gen n` is the
outcome of the (n+1)-st `call_gemini` call of the turn (0: planner, 1:
first synthesis, 2: retry synthesis); `searchF` is the search collaborator,
`overviewResults` the cached overview read.  The plan is produced, fresh
snippets gathered iff the plan asks for them, an answer synthesized; if the
critic flags it, the three broadened queries are re-retrieved and the
synthesis repeated exactly once; the planner's followups are attached to
whichever result is returned.  The second component traces the calls. -/
noncomputable def answer_multi (gen : Nat → Except Unit String)
    (searchF : String → Except Unit (List Snip))
    (embedF : List String → EmbedOut) (idx : VectorIndex)
    (overviewResults : List OvR) (company userPrompt : String)
    (years : Int) (kbReady : Bool) :
    Except Unit AnswerResponse × Trace :=
  let p := plan (gen 0) company userPrompt kbReady
  let rCalls0 := if p.needFreshSearch then [p.searchQueries] else []
  let freshE :=
    if p.needFreshSearch then gather_snippets searchF p.searchQueries
    else .ok []
  match freshE with
  | .error e => (.error e, ⟨[], rCalls0⟩)
  | .ok fresh =>
      match answer (gen 1) embedF idx company userPrompt overviewResults
          fresh with
      | .error e => (.error e, ⟨[fresh], rCalls0⟩)
      | .ok r1 =>
          if needs_retry r1.answer then
            let rq := refineQueries company userPrompt years
            match gather_snippets searchF rq with
            | .error e => (.error e, ⟨[fresh], rCalls0 ++ [rq]⟩)
            | .ok fresh2 =>
                match answer (gen 2) embedF idx company userPrompt
                    overviewResults fresh2 with
                | .error e => (.error e, ⟨[fresh, fresh2], rCalls0 ++ [rq]⟩)
                | .ok r2 =>
                    (.ok { r2 with followups := p.followups },
                      ⟨[fresh, fresh2], rCalls0 ++ [rq]⟩)
          else
            (.ok { r1 with followups := p.followups }, ⟨[fresh], rCalls0⟩)

/-! ## Helper lemmas -/

theorem strContains_of_isPrefixOf {needle hay : List Char}
    (h : needle.isPrefixOf hay = true) : strContains needle hay = true := by
  cases hay with
  | nil =>
      cases needle with
      | nil => rfl
      | cons c t => simp [List.isPrefixOf] at h
  | cons c t => simp [strContains, h]

theorem pyIn_self_append (a b : String) : pyIn a (a ++ b) = true := by
  apply strContains_of_isPrefixOf
  simp [String.data_append, List.isPrefixOf_iff_prefix]

theorem append_ne_empty_right (a : String) {b : String} (h : b ≠ "") :
    a ++ b ≠ "" := by
  intro he
  rw [String.ext_iff, String.data_append] at he
  exact h (String.ext_iff.mpr (List.append_eq_nil.mp he).2)

theorem append_ne_empty_left {a : String} (b : String) (h : a ≠ "") :
    a ++ b ≠ "" := by
  intro he
  rw [String.ext_iff, String.data_append] at he
  exact h (String.ext_iff.mpr (List.append_eq_nil.mp he).1)

/-! ## C7: the critic predicate -/

/-- C7: `CriticAgent.needs_retry` is true exactly on the empty string, on
text containing `"(No answer)"`, on text containing one of the four fixed
placeholder substrings, and on text with no digit at all; otherwise it is
false.  In particular it accepts `"Revenue grew in 2023 to 20B"` and flags
`"Growth was strong"`. -/
theorem needs_retry_spec :
    (∀ s : String, needs_retry s = true ↔
      (s = "" ∨ pyIn "(No answer)" s = true ∨ pyIn "[Insert" s = true ∨
        pyIn "Cite Source]" s = true ∨ pyIn "Not available" s = true ∨
        pyIn "(Overview)" s = true ∨ s.data.any Char.isDigit = false)) ∧
    needs_retry "Revenue grew in 2023 to 20B" = false ∧
    needs_retry "Growth was strong" = true := by
  refine ⟨fun s => ?_, by decide, by decide⟩
  unfold needs_retry
  split_ifs with h1 h2
  · simp only [true_iff]
    have h1' : s = "" ∨ pyIn "(No answer)" s = true := by simpa using h1
    rcases h1' with h | h
    · exact Or.inl h
    · exact Or.inr (Or.inl h)
  · simp only [true_iff]
    rcases List.any_eq_true.mp h2 with ⟨b, hb, hpy⟩
    simp only [List.mem_cons, List.not_mem_nil, or_false] at hb
    rcases hb with rfl | rfl | rfl | rfl
    · exact Or.inr (Or.inr (Or.inl hpy))
    · exact Or.inr (Or.inr (Or.inr (Or.inl hpy)))
    · exact Or.inr (Or.inr (Or.inr (Or.inr (Or.inl hpy))))
    · exact Or.inr (Or.inr (Or.inr (Or.inr (Or.inr (Or.inl hpy)))))
  · simp only [Bool.or_eq_true, beq_iff_eq, not_or] at h1
    constructor
    · intro h
      exact Or.inr (Or.inr (Or.inr (Or.inr (Or.inr (Or.inr
        (by simpa using h))))))
    · intro h
      rcases h with h | h | h | h | h | h | h
      · exact absurd h h1.1
      · exact absurd h (by simpa using h1.2)
      · exact absurd (List.any_eq_true.mpr ⟨"[Insert", by simp, h⟩) h2
      · exact absurd (List.any_eq_true.mpr ⟨"Cite Source]", by simp, h⟩) h2
      · exact absurd (List.any_eq_true.mpr ⟨"Not available", by simp, h⟩) h2
      · exact absurd (List.any_eq_true.mpr ⟨"(Overview)", by simp, h⟩) h2
      · rw [h]; rfl

/-! ## C8: the cache-only planner flag -/

/-- C8: `PlannerAgent.plan` sets `need_fresh_search` to false exactly when
`kb_ready` is true and the lowercased prompt contains one of the four fixed
trigger substrings; in every other case the flag stays true. -/
theorem plan_need_fresh_iff (genOut : Except Unit String)
    (company userPrompt : String) (kbReady : Bool) :
    (plan genOut company userPrompt kbReady).needFreshSearch = false ↔
      (kbReady = true ∧
        ∃ t ∈ plannerTriggers, pyIn t (pyLower userPrompt) = true) := by
  simp [plan, List.any_eq_true]

/-! ## C4: the planner fallback -/

/-- C4: when the text-generation collaborator raises (`.error`, swallowed by
the planner's try/except) or returns only blank lines, `PlannerAgent.plan`
returns exactly the 4 deterministic template queries, each non-empty and
each containing the stripped company name; in every case the query list is
non-empty with at most 4 entries.  (`plan` is a total function: no failure
path raises.) -/
theorem plan_fallback_spec (genOut : Except Unit String)
    (company userPrompt : String) (kbReady : Bool) :
    ((genOut = .error () ∨ ∃ t, genOut = .ok t ∧
          ((pySplitLines t).map pyStrip).filter (fun l => l ≠ "") = []) →
        (plan genOut company userPrompt kbReady).searchQueries =
            fallbackQueries company userPrompt ∧
          (plan genOut company userPrompt kbReady).searchQueries.length = 4 ∧
          ∀ q ∈ (plan genOut company userPrompt kbReady).searchQueries,
            q ≠ "" ∧ pyIn (pyStrip company) q = true) ∧
      (plan genOut company userPrompt kbReady).searchQueries ≠ [] ∧
      (plan genOut company userPrompt kbReady).searchQueries.length ≤ 4 := by
  constructor
  · intro hfail
    have hlines : (match genOut with
        | .error _ => ([] : List String)
        | .ok t => ((pySplitLines t).map pyStrip).filter (fun l => l ≠ "")) =
          [] := by
      rcases hfail with h | ⟨t, ht, hft⟩
      · rw [h]
      · rw [ht]; exact hft
    have hq : (plan genOut company userPrompt kbReady).searchQueries =
        fallbackQueries company userPrompt := by
      simp only [plan, hlines, List.isEmpty_nil, if_true]
      simp [fallbackQueries]
    refine ⟨hq, by rw [hq]; rfl, ?_⟩
    intro q hqmem
    rw [hq] at hqmem
    simp only [fallbackQueries, List.mem_cons, List.not_mem_nil,
      or_false] at hqmem
    rcases hqmem with rfl | rfl | rfl | rfl
    · constructor
      · exact append_ne_empty_right _ (by decide)
      · rw [String.append_assoc, String.append_assoc]
        exact pyIn_self_append _ _
    · exact ⟨append_ne_empty_right _ (by decide), pyIn_self_append _ _⟩
    · constructor
      · exact append_ne_empty_left _ (append_ne_empty_right _ (by decide))
      · rw [String.append_assoc]
        exact pyIn_self_append _ _
    · exact ⟨append_ne_empty_right _ (by decide), pyIn_self_append _ _⟩
  · constructor
    · simp only [plan]
      split
      · simp [fallbackQueries]
      · next hne =>
          intro htake
          rcases List.take_eq_nil_iff.mp htake with h | h
          · exact absurd h (by decide)
          · rw [h] at hne
            exact hne rfl
    · simp only [plan]
      exact List.length_take_le _ _

/-! ## Retriever lemmas -/

theorem collect_ok (searchF : String → Except Unit (List Snip))
    (f : String → List Snip) (hs : ∀ q, searchF q = .ok (f q)) :
    ∀ qs : List String, collect searchF qs =
      .ok ((qs.map (fun q => (f q).filter (fun h => h.url ≠ ""))).flatten)
  | [] => rfl
  | q :: qs => by
      simp only [collect, hs q, collect_ok searchF f hs qs, List.map_cons,
        List.flatten_cons]

theorem collect_append (searchF : String → Except Unit (List Snip)) :
    ∀ qs1 qs2 : List String, collect searchF (qs1 ++ qs2) =
      match collect searchF qs1 with
      | .error e => .error e
      | .ok r1 =>
          match collect searchF qs2 with
          | .error e => .error e
          | .ok r2 => .ok (r1 ++ r2)
  | [], qs2 => by
      simp only [List.nil_append, collect]
      cases collect searchF qs2 <;> rfl
  | q :: qs1, qs2 => by
      have ih := collect_append searchF qs1 qs2
      simp only [List.cons_append, collect, List.append_eq]
      cases searchF q with
      | error e => rfl
      | ok hits =>
          rw [ih]
          cases collect searchF qs1 with
          | error e => rfl
          | ok r1 =>
              cases collect searchF qs2 with
              | error e => rfl
              | ok r2 => simp [List.append_assoc]

theorem collect_ok_of_forall_ok (searchF : String → Except Unit (List Snip))
    (hs : ∀ q ∈ qs, ∃ h, searchF q = .ok h) :
    ∃ r, collect searchF qs = .ok r := by
  induction qs with
  | nil => exact ⟨[], rfl⟩
  | cons q qs ih =>
      obtain ⟨h, hq⟩ := hs q (List.mem_cons_self q qs)
      obtain ⟨r, hr⟩ := ih (fun x hx => hs x (List.mem_cons_of_mem q hx))
      exact ⟨h.filter (fun x => x.url ≠ "") ++ r, by
        simp only [collect, hq, hr]⟩

theorem dedup_not_mem_seen :
    ∀ (l : List Snip) (seen : List String) (x : Snip),
      x ∈ dedupByUrl seen l → x.url ∉ seen
  | [], _, _, hx => absurd hx (List.not_mem_nil _)
  | r :: rs, seen, x, hx => by
      by_cases hr : r.url ∈ seen
      · simp only [dedupByUrl, if_pos hr] at hx
        exact dedup_not_mem_seen rs seen x hx
      · simp only [dedupByUrl, if_neg hr, List.mem_cons] at hx
        rcases hx with rfl | hx
        · exact hr
        · have := dedup_not_mem_seen rs (r.url :: seen) x hx
          exact fun hmem => this (List.mem_cons_of_mem _ hmem)

theorem dedup_sublist :
    ∀ (l : List Snip) (seen : List String), List.Sublist (dedupByUrl seen l) l
  | [], _ => List.Sublist.refl _
  | r :: rs, seen => by
      by_cases hr : r.url ∈ seen
      · simp only [dedupByUrl, if_pos hr]
        exact (dedup_sublist rs seen).cons r
      · simp only [dedupByUrl, if_neg hr]
        exact (dedup_sublist rs (r.url :: seen)).cons₂ r

theorem dedup_pairwise :
    ∀ (l : List Snip) (seen : List String),
      (dedupByUrl seen l).Pairwise (fun a b => a.url ≠ b.url)
  | [], _ => List.Pairwise.nil
  | r :: rs, seen => by
      by_cases hr : r.url ∈ seen
      · simp only [dedupByUrl, if_pos hr]
        exact dedup_pairwise rs seen
      · simp only [dedupByUrl, if_neg hr]
        refine List.Pairwise.cons (fun x hx => ?_) (dedup_pairwise rs _)
        have := dedup_not_mem_seen rs (r.url :: seen) x hx
        intro he
        exact this (he ▸ List.mem_cons_self _ _)

theorem dedup_find :
    ∀ (l : List Snip) (seen : List String) (x : Snip),
      x ∈ dedupByUrl seen l →
        l.find? (fun r => r.url == x.url) = some x
  | [], _, _, hx => absurd hx (List.not_mem_nil _)
  | r :: rs, seen, x, hx => by
      by_cases hr : r.url ∈ seen
      · simp only [dedupByUrl, if_pos hr] at hx
        have hne : r.url ≠ x.url := by
          intro he
          exact dedup_not_mem_seen rs seen x hx (he ▸ hr)
        rw [List.find?_cons_of_neg _ (by simpa using hne)]
        exact dedup_find rs seen x hx
      · simp only [dedupByUrl, if_neg hr, List.mem_cons] at hx
        rcases hx with rfl | hx
        · exact List.find?_cons_of_pos _ (by simp)
        · have hne : r.url ≠ x.url := by
            intro he
            exact dedup_not_mem_seen rs (r.url :: seen) x hx
              (he ▸ List.mem_cons_self _ _)
          rw [List.find?_cons_of_neg _ (by simpa using hne)]
          exact dedup_find rs (r.url :: seen) x hx

theorem dedup_mem_url_ne_empty {l : List Snip} {seen : List String}
    (hall : ∀ r ∈ l, r.url ≠ "") :
    ∀ x ∈ dedupByUrl seen l, x.url ≠ "" :=
  fun x hx => hall x ((dedup_sublist l seen).mem hx)

/-! ## C2: gather_snippets output contract -/

/-- C2: with any per-query search results, `gather_snippets` returns a list
whose entries all have non-empty URLs, with pairwise-distinct URLs, of at
most 20 entries, that is an order-preserving sublist of the concatenated
per-query (URL-filtered) results, each entry being the first-seen hit for
its URL. -/
theorem gather_snippets_spec (f : String → List Snip)
    (queries : List String) :
    ∃ l, gather_snippets (fun q => .ok (f q)) queries = .ok l ∧
      (∀ it ∈ l, it.url ≠ "") ∧
      l.Pairwise (fun a b => a.url ≠ b.url) ∧
      l.length ≤ 20 ∧
      List.Sublist l ((queries.map (fun q => (f q).filter
          (fun h => h.url ≠ ""))).flatten) ∧
      ∀ it ∈ l, ((queries.map (fun q => (f q).filter
          (fun h => h.url ≠ ""))).flatten).find?
            (fun r => r.url == it.url) = some it := by
  set conc := (queries.map (fun q => (f q).filter
      (fun h => h.url ≠ ""))).flatten with hconc
  have hcoll := collect_ok (fun q => .ok (f q)) f (fun _ => rfl) queries
  refine ⟨(dedupByUrl [] conc).take 20, ?_, ?_, ?_, ?_, ?_, ?_⟩
  · simp only [gather_snippets, hcoll]
  · intro it hit
    have h1 : it ∈ dedupByUrl [] conc := List.mem_of_mem_take hit
    refine dedup_mem_url_ne_empty (fun r hr => ?_) it h1
    rw [hconc] at hr
    simp only [List.mem_flatten, List.mem_map] at hr
    obtain ⟨_, ⟨q, _, rfl⟩, hrm⟩ := hr
    simpa using (List.mem_filter.mp hrm).2
  · exact (dedup_pairwise conc []).sublist (List.take_sublist _ _)
  · exact List.length_take_le _ _
  · exact (List.take_sublist _ _).trans (dedup_sublist conc [])
  · intro it hit
    exact dedup_find conc [] it (List.mem_of_mem_take hit)

/-! ## C3: search-provider failure inside gather_snippets -/

/-- C3 counterexample: with a search collaborator that raises on the first
query and returns a hit for the second, `gather_snippets` propagates the
exception instead of returning the other query's hits. -/
theorem gather_snippets_propagates_error :
    gather_snippets
      (fun q => if q = "qa" then .error ()
        else .ok [{ name := "n", url := "http://b", snippet := "s" }])
      ["qa", "qb"] = .error () := by
  rfl

/-- C3 amended: a query whose search returns an *empty result* contributes
nothing and does not abort the other queries, but an *exception* raised by
the search collaborator for some query propagates out of `gather_snippets`
(there is no try/except around the per-query search call). -/
theorem gather_snippets_error_policy
    (searchF : String → Except Unit (List Snip)) (qs1 qs2 : List String)
    (q0 : String) :
    (searchF q0 = .ok [] →
        gather_snippets searchF (qs1 ++ q0 :: qs2) =
          gather_snippets searchF (qs1 ++ qs2)) ∧
      ((∀ q ∈ qs1, ∃ h, searchF q = .ok h) → searchF q0 = .error () →
        gather_snippets searchF (qs1 ++ q0 :: qs2) = .error ()) := by
  constructor
  · intro h0
    have hmid : collect searchF (q0 :: qs2) = collect searchF qs2 := by
      simp only [collect, h0, List.filter_nil, List.nil_append]
      cases collect searchF qs2 <;> rfl
    simp only [gather_snippets, collect_append searchF qs1 (q0 :: qs2),
      collect_append searchF qs1 qs2, hmid]
  · intro hok h0
    obtain ⟨r1, hr1⟩ := collect_ok_of_forall_ok searchF hok
    simp only [gather_snippets, collect_append searchF qs1 (q0 :: qs2),
      hr1, collect, h0]

/-! ## Index-state lemmas -/

theorem execOp_step (idx : VectorIndex) (op : IndexOp) (hwf : wfIndex idx)
    (hop : okOp op) :
    wfIndex (execOp idx op) ∧
      (∃ ts, (execOp idx op).texts = idx.texts ++ ts) ∧
      (∃ ms, (execOp idx op).metadatas = idx.metadatas ++ ms) ∧
      (∃ vs, (execOp idx op).vectors.getD [] = idx.vectors.getD [] ++ vs) := by
  obtain ⟨hw1, hw2⟩ := hwf
  cases op with
  | add eo ts ms =>
      by_cases hts : ts.isEmpty
      · simp only [execOp, add, if_pos hts]
        exact ⟨⟨hw1, hw2⟩, ⟨[], by simp⟩, ⟨[], by simp⟩, ⟨[], by simp⟩⟩
      · obtain ⟨ho1, ho2⟩ := hop
        simp only [execOp, add, if_neg hts]
        refine ⟨⟨?_, ?_⟩, ⟨ts, rfl⟩, ⟨ms, rfl⟩, ⟨eo.vecs, rfl⟩⟩
        · simp [hw1, ho1]
        · simp [hw2, ho2]
  | search eo q k =>
      simp only [execOp]
      split
      · exact ⟨⟨hw1, hw2⟩, ⟨[], by simp⟩, ⟨[], by simp⟩, ⟨[], by simp⟩⟩
      · exact ⟨⟨hw1, hw2⟩, ⟨[], by simp⟩, ⟨[], by simp⟩, ⟨[], by simp⟩⟩

theorem runOps_inv :
    ∀ (ops : List IndexOp) (idx : VectorIndex), wfIndex idx →
      (∀ op ∈ ops, okOp op) →
      wfIndex (runOps idx ops) ∧
        (∃ ts, (runOps idx ops).texts = idx.texts ++ ts) ∧
        (∃ ms, (runOps idx ops).metadatas = idx.metadatas ++ ms) ∧
        (∃ vs, (runOps idx ops).vectors.getD [] =
          idx.vectors.getD [] ++ vs)
  | [], idx, hwf, _ =>
      ⟨hwf, ⟨[], by simp [runOps]⟩, ⟨[], by simp [runOps]⟩,
        ⟨[], by simp [runOps]⟩⟩
  | op :: ops, idx, hwf, hops => by
      obtain ⟨hw', ⟨ts0,ht0⟩, ⟨ms0, hm0⟩, ⟨vs0, hv0⟩⟩ :=
        execOp_step idx op hwf (hops op (List.mem_cons_self _ _))
      obtain ⟨hw'', ⟨ts1, ht1⟩, ⟨ms1, hm1⟩, ⟨vs1, hv1⟩⟩ :=
        runOps_inv ops (execOp idx op) hw'
          (fun o ho => hops o (List.mem_cons_of_mem _ ho))
      have hrun : runOps idx (op :: ops) = runOps (execOp idx op) ops := rfl
      rw [hrun]
      exact ⟨hw'',
        ⟨ts0 ++ ts1, by rw [ht1, ht0, List.append_assoc]⟩,
        ⟨ms0 ++ ms1, by rw [hm1, hm0, List.append_assoc]⟩,
        ⟨vs0 ++ vs1, by rw [hv1, hv0, List.append_assoc]⟩⟩

/-! ## C9: parallel-array invariant, empty-add no-op, append-only store -/

/-- C9: starting from any well-formed index state, any sequence of `add`
and `search` operations (each `add` given equal-length `texts`/`metadatas`
and an embedding with one row per text) preserves the invariant
`#texts = #metadata = #rows`; an `add` with an empty `texts` list leaves
the entire state unchanged; and the store is append-only: the original
texts, metadata and rows survive, in order, as a prefix. -/
theorem vectorIndex_invariants (idx : VectorIndex) (ops : List IndexOp)
    (hwf : wfIndex idx) (hops : ∀ op ∈ ops, okOp op) :
    wfIndex (runOps idx ops) ∧
      (∀ eo ms, add eo idx [] ms = idx) ∧
      (∃ ts, (runOps idx ops).texts = idx.texts ++ ts) ∧
      (∃ ms, (runOps idx ops).metadatas = idx.metadatas ++ ms) ∧
      (∃ vs, (runOps idx ops).vectors.getD [] =
        idx.vectors.getD [] ++ vs) := by
  obtain ⟨h1, h2, h3, h4⟩ := runOps_inv ops idx hwf hops
  exact ⟨h1, fun eo ms => rfl, h2, h3, h4⟩

/-- C9 witness: a concrete run (one real `add`, one `search`, one empty
`add`) from the freshly initialised index. -/
theorem vectorIndex_invariants_witness :
    wfIndex initIndex ∧
      (wfIndex (runOps initIndex
          [.add ⟨[[1]], 1⟩ ["t"] [⟨"s", "p"⟩],
           .search ⟨[[0]], 1⟩ "q" 5,
           .add ⟨[], 0⟩ [] []]) ∧
        (∀ eo ms, add eo initIndex [] ms = initIndex) ∧
        (∃ ts, (runOps initIndex
            [.add ⟨[[1]], 1⟩ ["t"] [⟨"s", "p"⟩],
             .search ⟨[[0]], 1⟩ "q" 5,
             .add ⟨[], 0⟩ [] []]).texts = initIndex.texts ++ ts) ∧
        (∃ ms, (runOps initIndex
            [.add ⟨[[1]], 1⟩ ["t"] [⟨"s", "p"⟩],
             .search ⟨[[0]], 1⟩ "q" 5,
             .add ⟨[], 0⟩ [] []]).metadatas = initIndex.metadatas ++ ms) ∧
        (∃ vs, (runOps initIndex
            [.add ⟨[[1]], 1⟩ ["t"] [⟨"s", "p"⟩],
             .search ⟨[[0]], 1⟩ "q" 5,
             .add ⟨[], 0⟩ [] []]).vectors.getD [] =
            initIndex.vectors.getD [] ++ vs)) :=
  ⟨⟨rfl, rfl⟩,
    vectorIndex_invariants initIndex _ ⟨rfl, rfl⟩ (by
      intro op hop
      simp only [List.mem_cons, List.not_mem_nil, or_false] at hop
      rcases hop with rfl | rfl | rfl
      · exact ⟨rfl, rfl⟩
      · trivial
      · exact ⟨rfl, rfl⟩)⟩

/-! ## C6: the fixed-seed fallback embedding is deterministic -/

/-- C6: in the forced-failure mode both `add` and `search` embed through
`np.random.default_rng(42)`, which is re-seeded inside every `_embed` call,
so a run is a pure function of the seed-42 stream `pcg`: two runs on
identical inputs produce identical score sequences and identical metadata
orders, and the fallback embedding depends only on the number of texts,
not their contents (`rng.random((len(texts), 512))`). -/
theorem forced_fallback_deterministic (pcg : Nat → ℝ) (texts : List String)
    (metas : List Meta) (query : String) (k : Int) (f : String → String) :
    (runForced pcg texts metas query k).map Prod.fst =
        (runForced pcg texts metas query k).map Prod.fst ∧
      (runForced pcg texts metas query k).map Prod.snd =
        (runForced pcg texts metas query k).map Prod.snd ∧
      runForced pcg (texts.map f) metas query k =
        runForced pcg texts metas query k := by
  refine ⟨rfl, rfl, ?_⟩
  cases texts with
  | nil => rfl
  | cons a as =>
      simp [runForced, add, embedFallback, search, initIndex]

/-! ## Search lemmas -/

theorem getD_map_of_lt {α β : Type} (l : List α) (g : α → β) (da : α)
    (db : β) (i : Nat) (h : i < l.length) :
    (l.map g).getD i db = g (l.getD i da) := by
  simp [List.getD_eq_getElem?_getD, List.getElem?_map,
    List.getElem?_eq_getElem h]

/-! ## C5: the search contract -/

/-- C5 (amended): for a well-formed index state and `k ≥ 0`, `search`
returns an empty list on an empty index (for every `k`), at most
`min(k, number_of_rows)` pairs, sorted by descending score, each pair
consisting of the cosine-style score
`dot(row, qv) / (‖row‖·‖qv‖ + 1e-8)` of some stored row and that row's
metadata.  The tie order among equal scores is not asserted: numpy's
default `argsort` kind makes no stability guarantee.  The original claim's
arbitrary-integer `k` fails (see the counterexample): Python's `[:k]`
slicing keeps `len + k` elements for negative `k`. -/
theorem search_spec (embedF : List String → EmbedOut) (idx : VectorIndex)
    (q : String) (k : Int)
    (hwf : idx.metadatas.length = (idx.vectors.getD []).length) :
    (idx.texts.length = 0 → search embedF idx q k = []) ∧
      (0 ≤ k →
        ((search embedF idx q k).length : Int) ≤
            min k ((idx.vectors.getD []).length : Int) ∧
          ((search embedF idx q k).map Prod.fst).Pairwise
            (fun a b => b ≤ a) ∧
          ∀ p ∈ search embedF idx q k,
            ∃ i < (idx.vectors.getD []).length,
              p.1 = dotl ((idx.vectors.getD []).getD i [])
                      ((embedF [q]).vecs.headD []) /
                    (norm2 ((idx.vectors.getD []).getD i []) *
                      norm2 ((embedF [q]).vecs.headD []) + epsSim) ∧
                p.2 = idx.metadatas.getD i default) := by
  by_cases hguard : (idx.vectors.isNone || idx.texts.length == 0) = true
  · have hs : search embedF idx q k = [] := by
      simp only [search, if_pos hguard]
    refine ⟨fun _ => hs, fun hk => ?_⟩
    rw [hs]
    refine ⟨?_, List.Pairwise.nil, by simp⟩
    simp only [List.length_nil, Nat.cast_zero]
    exact le_min hk (Int.natCast_nonneg _)
  · have hs : search embedF idx q k =
        (pySlice k (argsortDesc (simsOf ((embedF [q]).vecs.headD [])
            (idx.vectors.getD [])))).map
          (fun i => ((simsOf ((embedF [q]).vecs.headD [])
              (idx.vectors.getD [])).getD i 0,
            idx.metadatas.getD i default)) := by
      simp only [search, if_neg hguard]
    set qv := (embedF [q]).vecs.headD [] with hqv
    set vecs := idx.vectors.getD [] with hvecs
    set sims := simsOf qv vecs with hsims
    have hsims_len : sims.length = vecs.length := by
      simp [hsims, simsOf]
    have hsort_len : (argsortDesc sims).length = sims.length := by
      simp [argsortDesc]
    refine ⟨fun h0 => absurd (by simp [h0]) hguard, fun hk => ?_⟩
    have htrans : ∀ a b c : Nat,
        (fun i j => decide (sims.getD j 0 ≤ sims.getD i 0)) a b = true →
        (fun i j => decide (sims.getD j 0 ≤ sims.getD i 0)) b c = true →
        (fun i j => decide (sims.getD j 0 ≤ sims.getD i 0)) a c = true := by
      intro a b c hab hbc
      simp only [decide_eq_true_eq] at hab hbc ⊢
      exact le_trans hbc hab
    have htotal : ∀ a b : Nat,
        ((fun i j => decide (sims.getD j 0 ≤ sims.getD i 0)) a b ||
          (fun i j => decide (sims.getD j 0 ≤ sims.getD i 0)) b a) =
          true := by
      intro a b
      simp only [Bool.or_eq_true, decide_eq_true_eq]
      exact le_total _ _
    have hsorted := @List.sorted_mergeSort Nat
      (fun i j => decide (sims.getD j 0 ≤ sims.getD i 0))
      htrans htotal (List.range sims.length)
    refine ⟨?_, ?_, ?_⟩
    · rw [hs]
      simp only [List.length_map, pySlice, if_pos hk, List.length_take,
        hsort_len, hsims_len]
      have hcast : ((k.toNat : Nat) : Int) = k := Int.toNat_of_nonneg hk
      rw [Nat.cast_min, hcast]
    · rw [hs, List.map_map]
      apply List.pairwise_map.mpr
      have hp : (pySlice k (argsortDesc sims)).Pairwise
          (fun i j => decide (sims.getD j 0 ≤ sims.getD i 0) = true) := by
        apply List.Pairwise.sublist _ hsorted
        simp only [pySlice]
        exact List.take_sublist _ _
      exact hp.imp (fun h => of_decide_eq_true h)
    · rw [hs]
      intro p hp
      obtain ⟨i, hi_mem, rfl⟩ := List.mem_map.mp hp
      have hi_in : i ∈ argsortDesc sims := by
        simp only [pySlice] at hi_mem
        exact List.mem_of_mem_take hi_mem
      have hi_lt : i < vecs.length := by
        rw [← hsims_len]
        exact List.mem_range.mp (by
          simpa [argsortDesc] using hi_in)
      refine ⟨i, hi_lt, ?_, rfl⟩
      show sims.getD i 0 = _
      rw [hsims, simsOf, getD_map_of_lt _ _ [] _ i hi_lt]

/-- C5 counterexample: on an index holding one item, a negative `k` (here
`k = -1`) makes `search` return zero pairs, while the claim's bound
`min(k, number_of_items)` is `-1`, so "at most `min(k, n)` pairs" is
violated — Python's `[:k]` slicing semantics, not a cap, governs negative
`k`. -/
theorem search_neg_k_counterexample :
    ¬ (((search embedOne idxOne "x" (-1)).length : Int) ≤
        min (-1 : Int) ((idxOne.vectors.getD []).length : Int)) := by
  have hs : search embedOne idxOne "x" (-1) = [] := by
    have hr1 : List.range 1 = [0] := rfl
    simp [search, idxOne, embedOne, pySlice, argsortDesc, simsOf, hr1]
  rw [hs]
  simp [idxOne]

/-- C5 witness: the amended contract evaluated on a concrete one-item
index with `k = 1`. -/
theorem search_spec_witness :
    idxOne.metadatas.length = (idxOne.vectors.getD []).length ∧
      ((idxOne.texts.length = 0 → search embedOne idxOne "x" 1 = []) ∧
        ((0 : Int) ≤ 1 →
          ((search embedOne idxOne "x" 1).length : Int) ≤
              min (1 : Int) ((idxOne.vectors.getD []).length : Int) ∧
            ((search embedOne idxOne "x" 1).map Prod.fst).Pairwise
              (fun a b => b ≤ a) ∧
            ∀ p ∈ search embedOne idxOne "x" 1,
              ∃ i < (idxOne.vectors.getD []).length,
                p.1 = dotl ((idxOne.vectors.getD []).getD i [])
                        ((embedOne ["x"]).vecs.headD []) /
                      (norm2 ((idxOne.vectors.getD []).getD i []) *
                        norm2 ((embedOne ["x"]).vecs.headD []) + epsSim) ∧
                  p.2 = idxOne.metadatas.getD i default)) :=
  ⟨rfl, search_spec embedOne idxOne "x" 1 rfl⟩

/-! ## Orchestration lemmas -/

theorem gather_ok (searchF : String → Except Unit (List Snip))
    (f : String → List Snip) (hs : ∀ q, searchF q = .ok (f q))
    (qs : List String) :
    gather_snippets searchF qs =
      .ok ((dedupByUrl [] ((qs.map (fun q => (f q).filter
        (fun h => h.url ≠ ""))).flatten)).take 20) := by
  simp only [gather_snippets, collect_ok searchF f hs qs]

/-! ## C1: the bounded retry policy of answer_multi -/

/-- C1: for every prompt and `kb_ready` flag (with the collaborators
responding), `answer_multi` performs at most one retry: the synthesis path
runs exactly once when the critic passes the first answer and exactly twice
when it flags it; the retry re-retrieves with the three fixed broadened
queries (`refineQueries`), not the planner's query set; no further retry
happens whatever the second answer looks like, and the second result is
returned with the planner's followups attached. -/
theorem answer_multi_retry_policy (gen : Nat → Except Unit String)
    (searchF : String → Except Unit (List Snip)) (f : String → List Snip)
    (embedF : List String → EmbedOut) (idx : VectorIndex) (ov : List OvR)
    (company userPrompt : String) (years : Int) (kbReady : Bool)
    (s1 s2 : String) (hsf : ∀ q, searchF q = .ok (f q))
    (hg1 : gen 1 = .ok s1) (hg2 : gen 2 = .ok s2) :
    (answer_multi gen searchF embedF idx ov company userPrompt years
        kbReady).2.synthCalls.length ≤ 2 ∧
      ∃ fresh r1,
        (if (plan (gen 0) company userPrompt kbReady).needFreshSearch then
            gather_snippets searchF
              (plan (gen 0) company userPrompt kbReady).searchQueries
          else .ok []) = .ok fresh ∧
        answer (gen 1) embedF idx company userPrompt ov fresh = .ok r1 ∧
        (needs_retry r1.answer = false →
          (answer_multi gen searchF embedF idx ov company userPrompt years
              kbReady).2.synthCalls = [fresh] ∧
          (answer_multi gen searchF embedF idx ov company userPrompt years
              kbReady).2.retrieveCalls =
            (if (plan (gen 0) company userPrompt kbReady).needFreshSearch
              then [(plan (gen 0) company userPrompt kbReady).searchQueries]
              else []) ∧
          (answer_multi gen searchF embedF idx ov company userPrompt years
              kbReady).1 =
            .ok { r1 with followups :=
              (plan (gen 0) company userPrompt kbReady).followups }) ∧
        (needs_retry r1.answer = true →
          ∃ fresh2 r2,
            gather_snippets searchF
              (refineQueries company userPrompt years) = .ok fresh2 ∧
            answer (gen 2) embedF idx company userPrompt ov fresh2 =
              .ok r2 ∧
            (answer_multi gen searchF embedF idx ov company userPrompt
                years kbReady).2.synthCalls = [fresh, fresh2] ∧
            (answer_multi gen searchF embedF idx ov company userPrompt
                years kbReady).2.retrieveCalls =
              (if (plan (gen 0) company userPrompt kbReady).needFreshSearch
                then
                  [(plan (gen 0) company userPrompt kbReady).searchQueries]
                else []) ++ [refineQueries company userPrompt years] ∧
            (answer_multi gen searchF embedF idx ov company userPrompt
                years kbReady).1 =
              .ok { r2 with followups :=
                (plan (gen 0) company userPrompt kbReady).followups }) := by
  obtain ⟨fresh, hfresh⟩ : ∃ fr,
      (if (plan (gen 0) company userPrompt kbReady).needFreshSearch then
          gather_snippets searchF
            (plan (gen 0) company userPrompt kbReady).searchQueries
        else .ok []) = .ok fr := by
    split
    · exact ⟨_, gather_ok searchF f hsf _⟩
    · exact ⟨[], rfl⟩
  obtain ⟨r1, hr1⟩ : ∃ r1,
      answer (gen 1) embedF idx company userPrompt ov fresh = .ok r1 := by
    rw [hg1]
    exact ⟨_, rfl⟩
  by_cases hcrit : needs_retry r1.answer = true
  · have hfresh2 := gather_ok searchF f hsf
      (refineQueries company userPrompt years)
    obtain ⟨r2, hr2⟩ : ∃ r2,
        answer (gen 2) embedF idx company userPrompt ov
          ((dedupByUrl []
            (((refineQueries company userPrompt years).map
              (fun q => (f q).filter (fun h => h.url ≠ ""))).flatten)).take
            20) = .ok r2 := by
      rw [hg2]
      exact ⟨_, rfl⟩
    have hM : answer_multi gen searchF embedF idx ov company userPrompt
        years kbReady =
        (.ok { r2 with followups :=
            (plan (gen 0) company userPrompt kbReady).followups },
          ⟨[fresh,
            (dedupByUrl []
              (((refineQueries company userPrompt years).map
                (fun q => (f q).filter (fun h => h.url ≠ ""))).flatten)).take
              20],
            (if (plan (gen 0) company userPrompt kbReady).needFreshSearch
              then [(plan (gen 0) company userPrompt kbReady).searchQueries]
              else []) ++ [refineQueries company userPrompt years]⟩) := by
      simp only [answer_multi, hfresh, hr1, hcrit, if_true, hfresh2, hr2]
    rw [hM]
    refine ⟨by simp, fresh, r1, hfresh, hr1, ?_, ?_⟩
    · intro hfalse
      rw [hcrit] at hfalse
      cases hfalse
    · intro _
      exact ⟨_, r2, hfresh2, hr2, rfl, rfl, rfl⟩
  · have hcrit' : needs_retry r1.answer = false := by
      simpa using hcrit
    have hM : answer_multi gen searchF embedF idx ov company userPrompt
        years kbReady =
        (.ok { r1 with followups :=
            (plan (gen 0) company userPrompt kbReady).followups },
          ⟨[fresh],
            if (plan (gen 0) company userPrompt kbReady).needFreshSearch
              then [(plan (gen 0) company userPrompt kbReady).searchQueries]
              else []⟩) := by
      simp only [answer_multi, hfresh, hr1, hcrit', Bool.false_eq_true,
        if_false]
    rw [hM]
    refine ⟨by simp, fresh, r1, hfresh, hr1, fun _ => ⟨rfl, rfl, rfl⟩, ?_⟩
    intro htrue
    rw [htrue] at hcrit'
    cases hcrit'

/-! ## C10: the retry ignores the cache-only signal -/

/-- C10: even when the plan decides against fresh search (cache-only
signal), a critic-triggered retry still performs fresh web retrieval:
`gather_snippets` is called with the three broadened queries, and the
synthesis path runs twice. -/
theorem answer_multi_retry_ignores_cache_only (gen : Nat → Except Unit String)
    (searchF : String → Except Unit (List Snip)) (f : String → List Snip)
    (embedF : List String → EmbedOut) (idx : VectorIndex) (ov : List OvR)
    (company userPrompt : String) (years : Int) (kbReady : Bool)
    (s2 : String) (r1 : AnswerResponse)
    (hsf : ∀ q, searchF q = .ok (f q))
    (hplan : (plan (gen 0) company userPrompt kbReady).needFreshSearch =
      false)
    (hr1 : answer (gen 1) embedF idx company userPrompt ov [] = .ok r1)
    (hflag : needs_retry r1.answer = true) (hg2 : gen 2 = .ok s2) :
    (answer_multi gen searchF embedF idx ov company userPrompt years
        kbReady).2.retrieveCalls =
      [refineQueries company userPrompt years] ∧
    (answer_multi gen searchF embedF idx ov company userPrompt years
        kbReady).2.synthCalls.length = 2 := by
  have hfresh2 := gather_ok searchF f hsf
    (refineQueries company userPrompt years)
  obtain ⟨r2, hr2⟩ : ∃ r2,
      answer (gen 2) embedF idx company userPrompt ov
        ((dedupByUrl []
          (((refineQueries company userPrompt years).map
            (fun q => (f q).filter (fun h => h.url ≠ ""))).flatten)).take
          20) = .ok r2 := by
    rw [hg2]
    exact ⟨_, rfl⟩
  have hM : answer_multi gen searchF embedF idx ov company userPrompt
      years kbReady =
      (.ok { r2 with followups :=
          (plan (gen 0) company userPrompt kbReady).followups },
        ⟨[[],
          (dedupByUrl []
            (((refineQueries company userPrompt years).map
              (fun q => (f q).filter (fun h => h.url ≠ ""))).flatten)).take
            20],
          [] ++ [refineQueries company userPrompt years]⟩) := by
    simp only [answer_multi, hplan, Bool.false_eq_true, if_false, hr1,
      hflag, if_true, hfresh2, hr2]
  rw [hM]
  exact ⟨by simp, rfl⟩

/-! ## Witnesses -/

/-- C7 witness: the critic characterisation at a concrete string. -/
theorem needs_retry_spec_witness :
    needs_retry "Growth was strong" = true ↔
      ("Growth was strong" = "" ∨
        pyIn "(No answer)" "Growth was strong" = true ∨
        pyIn "[Insert" "Growth was strong" = true ∨
        pyIn "Cite Source]" "Growth was strong" = true ∨
        pyIn "Not available" "Growth was strong" = true ∨
        pyIn "(Overview)" "Growth was strong" = true ∨
        ("Growth was strong" : String).data.any Char.isDigit = false) :=
  needs_retry_spec.1 "Growth was strong"

/-- C8 witness: the cache-only flag characterisation at concrete inputs. -/
theorem plan_need_fresh_iff_witness :
    (plan (.ok "q") "Acme" "use kb please" true).needFreshSearch = false ↔
      (true = true ∧
        ∃ t ∈ plannerTriggers,
          pyIn t (pyLower "use kb please") = true) :=
  plan_need_fresh_iff (.ok "q") "Acme" "use kb please" true

/-- C4 witness: the planner fallback evaluated with a raising
collaborator. -/
theorem plan_fallback_spec_witness :
    ((plan (.error ()) "Acme" "revenue" true).searchQueries =
        fallbackQueries "Acme" "revenue" ∧
      (plan (.error ()) "Acme" "revenue" true).searchQueries.length = 4 ∧
      ∀ q ∈ (plan (.error ()) "Acme" "revenue" true).searchQueries,
        q ≠ "" ∧ pyIn (pyStrip "Acme") q = true) ∧
    (plan (.error ()) "Acme" "revenue" true).searchQueries ≠ [] ∧
    (plan (.error ()) "Acme" "revenue" true).searchQueries.length ≤ 4 :=
  ⟨(plan_fallback_spec (.error ()) "Acme" "revenue" true).1 (Or.inl rfl),
    (plan_fallback_spec (.error ()) "Acme" "revenue" true).2⟩

/-- C2 witness: the retriever contract at two concrete queries whose
results share a URL and contain an empty URL. -/
theorem gather_snippets_spec_witness :
    ∃ l, gather_snippets (fun q => .ok (hitsStub q)) ["a", "b"] = .ok l ∧
      (∀ it ∈ l, it.url ≠ "") ∧
      l.Pairwise (fun a b => a.url ≠ b.url) ∧
      l.length ≤ 20 ∧
      List.Sublist l ((["a", "b"].map (fun q => (hitsStub q).filter
          (fun h => h.url ≠ ""))).flatten) ∧
      ∀ it ∈ l, ((["a", "b"].map (fun q => (hitsStub q).filter
          (fun h => h.url ≠ ""))).flatten).find?
            (fun r => r.url == it.url) = some it :=
  gather_snippets_spec hitsStub ["a", "b"]

/-- C3 witness: the amended error policy evaluated concretely — an empty
per-query result degrades gracefully, a raising one propagates. -/
theorem gather_error_policy_witness :
    gather_snippets searchStubMixed (["qx"] ++ "qe" :: ["qy"]) =
      gather_snippets searchStubMixed (["qx"] ++ ["qy"]) ∧
    gather_snippets searchStubMixed (["qx"] ++ "qz" :: ["qy"]) =
      .error () :=
  ⟨(gather_snippets_error_policy searchStubMixed ["qx"] ["qy"] "qe").1 rfl,
    (gather_snippets_error_policy searchStubMixed ["qx"] ["qy"] "qz").2
      (by
        intro q hq
        simp only [List.mem_cons, List.not_mem_nil, or_false] at hq
        subst hq
        exact ⟨[⟨"n", "u", "s"⟩], rfl⟩)
      rfl⟩

/-- C6 witness: forced-fallback determinism at concrete inputs. -/
theorem forced_fallback_deterministic_witness :
    (runForced (fun _ => (0 : ℝ)) ["t1"] [⟨"s", "p"⟩] "q" 5).map
        Prod.fst =
      (runForced (fun _ => (0 : ℝ)) ["t1"] [⟨"s", "p"⟩] "q" 5).map
        Prod.fst ∧
    (runForced (fun _ => (0 : ℝ)) ["t1"] [⟨"s", "p"⟩] "q" 5).map
        Prod.snd =
      (runForced (fun _ => (0 : ℝ)) ["t1"] [⟨"s", "p"⟩] "q" 5).map
        Prod.snd ∧
    runForced (fun _ => (0 : ℝ)) (["t1"].map (fun _ => "t2"))
        [⟨"s", "p"⟩] "q" 5 =
      runForced (fun _ => (0 : ℝ)) ["t1"] [⟨"s", "p"⟩] "q" 5 :=
  forced_fallback_deterministic (fun _ => 0) ["t1"] [⟨"s", "p"⟩] "q" 5
    (fun _ => "t2")

/-- C1 witness: with the stubbed generator (first synthesis `"(No
answer)"`, second numeric), the synthesis path of `answer_multi` runs at
most twice. -/
theorem answer_multi_retry_policy_witness :
    genStub 1 = .ok "(No answer)" ∧
    genStub 2 = .ok "Revenue 2023 20B" ∧
    (answer_multi genStub searchStub embedStub initIndex [] "Acme"
        "revenue" 3 true).2.synthCalls.length ≤ 2 :=
  ⟨rfl, rfl,
    (answer_multi_retry_policy genStub searchStub (fun _ => []) embedStub
      initIndex [] "Acme" "revenue" 3 true "(No answer)"
      "Revenue 2023 20B" (fun _ => rfl) rfl rfl).1⟩

/-- C10 witness: with a cache-only prompt (`"use kb …"`), `kb_ready` true
and a flagged first answer, the retry still retrieves with the broadened
queries and the synthesis path runs twice. -/
theorem answer_multi_cache_only_witness :
    (plan (genStub 0) "Acme" "use kb revenue" true).needFreshSearch =
      false ∧
    needs_retry "(No answer)" = true ∧
    ((answer_multi genStub searchStub embedStub initIndex [] "Acme"
        "use kb revenue" 3 true).2.retrieveCalls =
      [refineQueries "Acme" "use kb revenue" 3] ∧
    (answer_multi genStub searchStub embedStub initIndex [] "Acme"
        "use kb revenue" 3 true).2.synthCalls.length = 2) :=
  ⟨by decide, by decide,
    answer_multi_retry_ignores_cache_only genStub searchStub (fun _ => [])
      embedStub initIndex [] "Acme" "use kb revenue" 3 true
      "Revenue 2023 20B" ⟨"(No answer)", [], [], []⟩ (fun _ => rfl)
      (by decide) rfl (by decide) rfl⟩

end CAPlan

